import Mathlib

/-!
Verification of the SuiteCloud++ multi-environment synchronization engine
(`multiEnvironment.ts`).  The definitions below are a shallow embedding of the
extension's data model and operations:

* JavaScript objects (the parsed `project.json` contents, the
  `NetSuiteAuthAccountInfo` records, and the `defaultAuthIdsByProjectJson`
  cache) are modelled as insertion-ordered association lists with JS property
  semantics: setting an existing key updates it in place, setting a new key
  appends it, and reading a missing key yields `none` (JS `undefined`).
* JSON values stored in a project state file are modelled by `JVal`: strings
  are explicit (`vstr`); all other JSON values are opaque (`vother`) and carry
  only their JS truthiness, which is the single fact the engine inspects about
  them.
* Strings are Lean `String`s; the engine only ever lowercases / matches ASCII
  data, so `Char.toLower` is an adequate model of `String.prototype.toLowerCase`.
* `async` functions become pure functions from their inputs (current file
  contents, collaborator outputs, user choices) to the state they produce;
  a rejected promise is an `Except.error`.
-/

/-- A JSON/JS value as far as the engine observes it: either a string, or an
opaque non-string value carrying only its JS truthiness and an identity tag. -/
inductive JVal where
  | vstr (s : String)
  | vother (truthy : Bool) (tag : Nat)
deriving DecidableEq, Repr

/-- JS truthiness of a `JVal`: a string is truthy iff it is non-empty. -/
def JVal.isTruthy : JVal → Bool
  | .vstr s => s != ""
  | .vother b _ => b

/-- JS truthiness of an optional value (`undefined` is falsy). -/
def jsTruthy : Option JVal → Bool
  | none => false
  | some v => v.isTruthy

/-- JS truthiness for optional strings (used where the source reads a string
property, e.g. `!existing.type`). -/
def jsTruthyS : Option String → Bool
  | none => false
  | some s => s != ""

/-- Property read on a JS object modelled as an association list: the value at
the first matching key, `none` when the key is missing (JS `undefined`). -/
def objGet {α : Type} : List (String × α) → String → Option α
  | [], _ => none
  | p :: rest, k => if p.1 == k then some p.2 else objGet rest k

/-- Property write on a JS object: an existing key is updated in place
(insertion order preserved), a new key is appended. -/
def objSet {α : Type} : List (String × α) → String → α → List (String × α)
  | [], k, v => [(k, v)]
  | p :: rest, k, v => if p.1 == k then (k, v) :: rest else p :: objSet rest k v

/-- A parsed `project.json` file: a JS object of `JVal`s. -/
abbrev JObj : Type := List (String × JVal)

/-- A `NetSuiteAuthAccountInfo` record: a JS object whose values are the
strings produced by parsing the SDF CLI output (the `name` key is always set
on construction; `type` is the account-type alias). -/
abbrev EnvRec : Type := List (String × String)

/-- JS property access `env.name` as a string: a missing key is `undefined`,
which JS coerces to the string "undefined" in the string contexts
(object keys, regex tests) where the source uses it. -/
def envName (e : EnvRec) : String :=
  (objGet e "name").getD "undefined"

/-- The literal synthetic picker entry (`MSG_SHOW_ALL_ENVIRONMENTS`,
`multiEnvironment.ts` line 10). -/
def MSG_SHOW_ALL_ENVIRONMENTS : String := "CLEAR FILTER / SHOW ALL"

/-- ASCII lowercasing, modelling `String.prototype.toLowerCase` on the ASCII
data the engine handles. -/
def jsToLower (s : String) : String :=
  String.mk (s.data.map Char.toLower)

/-- `s.startsWith(pre)` (`String.prototype.startsWith`). -/
def strStartsWith (s pre : String) : Bool :=
  pre.data.isPrefixOf s.data

/-- JS whitespace for `String.prototype.trim` (space, tab, newline, carriage
return, vertical tab, form feed — the characters relevant to CLI output). -/
def isJsWhitespace (c : Char) : Bool :=
  c == ' ' || c == '\t' || c == '\n' || c == '\r' || c.toNat == 11 || c.toNat == 12

/-- `s.trim()`: strip JS whitespace from both ends. -/
def jsTrim (s : String) : String :=
  String.mk (((s.data.dropWhile isJsWhitespace).reverse.dropWhile isJsWhitespace).reverse)

/-- Fuel-driven worker for `String.prototype.split` with a non-empty string
separator: at each position, a separator match closes the current field and
consumes the separator, otherwise the character joins the current field.  The
fuel is an upper bound on the input length (each step consumes at least one
character), making the recursion structural. -/
def jsSplitGo (sep : List Char) : Nat → List Char → List (List Char)
  | _, [] => [[]]
  | 0, l => [l]
  | fuel + 1, c :: rest =>
    if sep.isPrefixOf (c :: rest) then
      [] :: jsSplitGo sep fuel (rest.drop (sep.length - 1))
    else
      match jsSplitGo sep fuel rest with
      | [] => [[c]]
      | p :: ps => (c :: p) :: ps

/-- `s.split(sep)` for a non-empty string separator.  Like in JS, the result
is never empty: a string with no separator occurrence (in particular `""`)
yields the one-element list `[s]`. -/
def jsSplit (s sep : String) : List String :=
  (jsSplitGo sep.data s.data.length s.data).map String.mk

/-- Bool test for `sub` occurring as a contiguous run inside `l`, modelling
`String.prototype.includes` (on the character list). -/
def charListContains : List Char → List Char → Bool
  | sub, [] => sub.isEmpty
  | sub, c :: rest => sub.isPrefixOf (c :: rest) || charListContains sub rest

/-- `s.includes(sub)` for strings. -/
def strContains (s sub : String) : Bool :=
  charListContains sub.data s.data

/-- The classification function `isProd` (`multiEnvironment.ts` lines
269-291), taking the global `environments` catalog as an argument:
an empty authId is never production; otherwise the first catalog record whose
`name` equals the authId is looked up; a record whose `Account ID` starts
(case-insensitively) with "tstdrv" is never production; otherwise a record of
`type` "Production" is production; otherwise (in particular with no record)
fall back to testing whether the lowercased authId contains "prod". -/
def isProd (authId : String) (environments : List EnvRec) : Bool :=
  if authId == "" then false
  else
    let accInfo := environments.find? (fun env => objGet env "name" == some authId)
    let accountId : String :=
      match accInfo with
      | some acc => (objGet acc "Account ID").getD ""
      | none => ""
    let isTstdrvAcc := strStartsWith (jsToLower accountId) "tstdrv"
    if isTstdrvAcc then false
    else if (match accInfo with
             | some acc => objGet acc "type" == some "Production"
             | none => false) then true
    else strContains (jsToLower authId) "prod"

/-- Strip the control and C1 escape characters that the SDF CLI mixes into its
output, modelling `line.replace(/[\u0000-\u001F\u007F-\u009F]/g, "")`
(`multiEnvironment.ts` line 125 and line 202). -/
def stripControl (s : String) : String :=
  String.mk (s.data.filter (fun c => !(c.toNat < 32 || (127 ≤ c.toNat && c.toNat ≤ 159))))

/-- Replace the first occurrence of `pat` in a character list by `rep`,
modelling `String.prototype.replace` with a string pattern (which replaces
only the first occurrence). -/
def charListReplaceFirst : List Char → List Char → List Char → List Char
  | [], pat, rep => if pat.isEmpty then rep else []
  | c :: rest, pat, rep =>
    if pat.isPrefixOf (c :: rest) then rep ++ (c :: rest).drop pat.length
    else c :: charListReplaceFirst rest pat rep

/-- `s.replace(pat, rep)` for a string pattern: first occurrence only. -/
def strReplaceFirst (s pat rep : String) : String :=
  String.mk (charListReplaceFirst s.data pat.data rep.data)

/-- The per-line cleanup applied to SDF CLI output: strip control/escape
characters, then drop one literal "[2K[1G" artifact (the bracket sequence left
after the ESC bytes were stripped). -/
def stripFormatting (line : String) : String :=
  strReplaceFirst (stripControl line) "[2K[1G" ""

/-- Parsing of the enumeration collaborator's stdout into environment names
(`loadNetSuiteEnvironments`, `multiEnvironment.ts` lines 119-128, identical in
`src/multiEnvironment.ts` `getNetSuiteEnvironments` lines 86-95): trim, split
into lines, and for each line keep the first " | "-delimited field of the
cleaned-up text.  Note that `String.split` (JS) on a string with no separator
occurrence returns a one-element list, and in particular the empty string
yields `[""]`, never `[]`. -/
def parseEnvList (stdout : String) : List String :=
  (jsSplit (jsTrim stdout) "\n").map
    (fun line => (jsSplit (stripFormatting line) " | ").headD "")

/-- The `oldEnvironmentsByName` map built at the start of a catalog refresh
(`multiEnvironment.ts` lines 140-143): a JS object keyed by each record's
`name`, later records overwriting earlier ones with the same name. -/
def mkOldByName (envs : List EnvRec) : List (String × EnvRec) :=
  envs.foldl (fun m env => objSet m (envName env) env) []

/-- The merge loop of a catalog refresh (`multiEnvironment.ts` lines 145-158),
processing the enumerated names in order: a name with no previous record gets
a fresh placeholder `{ name }` and is queued for detail backfill; a name with
a previous record keeps that record unchanged and is re-queued only when the
record has no detail yet (`Object.keys(existing).length === 1 || !existing.type`).
Returns (new catalog, names queued for detail backfill). -/
def refreshMergeGo (oldByName : List (String × EnvRec)) :
    List String → List EnvRec × List String
  | [] => ([], [])
  | n :: rest =>
    let r := refreshMergeGo oldByName rest
    match objGet oldByName n with
    | none => ([("name", n)] :: r.1, n :: r.2)
    | some existing =>
      (existing :: r.1,
       if existing.length == 1 || !(jsTruthyS (objGet existing "type"))
       then n :: r.2 else r.2)

/-- Catalog refresh merge against the previous catalog. -/
def refreshMerge (old : List EnvRec) (envList : List String) :
    List EnvRec × List String :=
  refreshMergeGo (mkOldByName old) envList

/-- Parsing of the detail collaborator's stdout for a single environment
(`loadEnvironmentDetails`, `multiEnvironment.ts` lines 195-217): clean up each
line; a line splitting on ":" into exactly two parts stores
`trimmedKey -> trimmedValue` on the record; key "Account Type" additionally
sets the `type` alias. -/
def parseEnvInfo (theEnvName stdout : String) : EnvRec :=
  let lines := (jsSplit (jsTrim stdout) "\n").map stripFormatting
  lines.foldl
    (fun envInfo line =>
      match jsSplit line ":" with
      | [k, v] =>
        let key := jsTrim k
        let val := jsTrim v
        let envInfo2 := objSet envInfo key val
        if key == "Account Type" then objSet envInfo2 "type" val else envInfo2
      | _ => envInfo)
    [("name", theEnvName)]

/-- The `envIndicesByName` map (`multiEnvironment.ts` lines 183-189): the
index of each catalog record whose name is in the queued list (later records
with the same name overwrite earlier ones). -/
def mkEnvIdx (envList : List String) (envs : List EnvRec) : List (String × Nat) :=
  envs.enum.foldl
    (fun m p =>
      if envList.contains (envName p.2) then objSet m (envName p.2) p.1 else m)
    []

/-- Store a freshly parsed detail record at the queued name's catalog index
(`environments[envIndicesByName[envName]] = envInfo`, line 218). -/
def applyDetail (idx : List (String × Nat)) (envs : List EnvRec)
    (n out : String) : List EnvRec :=
  match objGet idx n with
  | some i => envs.set i (parseEnvInfo n out)
  | none => envs

/-- The detail backfill loop (`multiEnvironment.ts` lines 191-220): names are
processed strictly one at a time in order; each name's collaborator call is
awaited with no try/catch inside the loop, so a rejected call makes the whole
async function reject, leaving the remaining names unprocessed.  The oracle is
the detail collaborator (`suitecloud account:manageauth --info <name>`); the
Bool result records whether the loop ran to completion. -/
def backfillGo (oracle : String → Except Unit String) (idx : List (String × Nat)) :
    List String → List EnvRec → List EnvRec × Bool
  | [], envs => (envs, true)
  | n :: rest, envs =>
    match oracle n with
    | Except.error _ => (envs, false)
    | Except.ok out => backfillGo oracle idx rest (applyDetail idx envs n out)

/-- `loadEnvironmentDetails`: build the index map from the full queue, then
run the sequential backfill loop. -/
def loadEnvironmentDetails (oracle : String → Except Unit String)
    (envList : List String) (environments : List EnvRec) : List EnvRec × Bool :=
  backfillGo oracle (mkEnvIdx envList environments) envList environments

/-- The synthetic picker entry pushed when the filtered list is shorter than
the full one (`multiEnvironment.ts` line 332). -/
def clearFilterEntry : EnvRec := [("name", MSG_SHOW_ALL_ENVIRONMENTS)]

/-- The filtered pick-list construction of `handleSelectEnvironment`
(`multiEnvironment.ts` lines 308-334) for the case where a filter pattern is
present: `test` is the compiled case-insensitive regex's `test` function (the
regex engine is a host collaborator).  The environments are filtered by name;
an error message is surfaced when the filtered list is empty; the synthetic
clear-filter entry is pushed whenever the filtered list is strictly shorter
than the full one.  Returns (presented list, error surfaced?). -/
def buildPickList (test : String → Bool) (environments : List EnvRec) :
    List EnvRec × Bool :=
  let filteredEnvironments := environments.filter (fun val => test (envName val))
  let errorShown := filteredEnvironments.length == 0
  let final :=
    if filteredEnvironments.length < environments.length
    then filteredEnvironments ++ [clearFilterEntry]
    else filteredEnvironments
  (final, errorShown)

/-- The list of names offered to the quick pick: the filtered pick list when a
filter pattern applies, the plain environment list when filtering is off
(`ignoreFilter` or no configured pattern). -/
def presentedNames (envs : List EnvRec) : Option (String → Bool) → List String
  | some t => ((buildPickList t envs).1).map envName
  | none => envs.map envName

/-- The selection flow of `handleSelectEnvironment` (`multiEnvironment.ts`
lines 336-352) driven by a list of successive user choices (`none` is a
cancelled quick pick).  Choosing the literal `MSG_SHOW_ALL_ENVIRONMENTS` name
re-invokes the flow with filtering disabled (line 345-348) and performs no
commit; choosing any other name commits it (it is then stored in the cache
and written to the state file, lines 350-352).  Returns (the successively
presented name lists, the committed environment if any). -/
def selectFlow (envs : List EnvRec) :
    Option (String → Bool) → List (Option String) → List (List String) × Option String
  | _, [] => ([], none)
  | test, choice :: rest =>
    match choice with
    | none => ([presentedNames envs test], none)
    | some env =>
      if env == MSG_SHOW_ALL_ENVIRONMENTS then
        let r := selectFlow envs none rest
        (presentedNames envs test :: r.1, r.2)
      else ([presentedNames envs test], some env)

/-- Abstract model of `JSON.stringify(new Date())` at engine time `t`: the
serialized timestamp string.  Only two facts about it reach the engine's
logic: it is a string and it is never empty (it is modelled as starting with
the digit '2', as ISO dates of this era do). -/
def isoDate (t : Nat) : String :=
  String.mk ('2' :: (Nat.repr t).data)

/-- Result of `onProjectJsonFileChanged`: whether a catalog refresh was
triggered, and the file content written back (only when an environment switch
was being committed). -/
structure ChangeResult where
  refreshTriggered : Bool
  written : Option JObj
deriving DecidableEq, Repr

/-- `onProjectJsonFileChanged` (`multiEnvironment.ts` lines 366-396) on the
parsed current file contents: when committing an environment switch (`env`
present) `defaultAuthId` is set; a catalog refresh is triggered exactly when
the `suiteCloudPlusPlusLastModified` field of the (updated) contents is JS-
falsy; when committing, the marker is then set to the serialized current date
and the file is written back (`JSON.stringify` with indentation; the written
object is the post-serialization content, so the Date appears as its
serialized string). -/
def onProjectJsonFileChanged (fileContents : JObj) (env : Option String)
    (now : Nat) : ChangeResult :=
  let j1 : JObj :=
    match env with
    | some e => objSet fileContents "defaultAuthId" (JVal.vstr e)
    | none => fileContents
  let refreshTriggered := !(jsTruthy (objGet j1 "suiteCloudPlusPlusLastModified"))
  let written : Option JObj :=
    match env with
    | some _ => some (objSet j1 "suiteCloudPlusPlusLastModified" (JVal.vstr (isoDate now)))
    | none => none
  ⟨refreshTriggered, written⟩

/-- Result of one cached read of a state file's `defaultAuthId`. -/
structure ReadResult where
  value : Option JVal
  didParse : Bool
  cacheAfter : List (String × Option JVal)
deriving DecidableEq, Repr

/-- The State Cache read of `updateStatusBarItem` (`multiEnvironment.ts`
lines 245-257): `defaultAuthIdsByProjectJson[path]` is consulted first; a
value that is not `undefined` is returned without touching disk; otherwise the
file is parsed and the extracted `defaultAuthId` (possibly `undefined`) is
stored into the cache.  The cache is a JS object whose stored values may
themselves be `undefined`, which a later `=== undefined` check cannot tell
apart from an absent entry — hence the `Option (Option JVal)` join. -/
def cacheRead (cache : List (String × Option JVal)) (path : String)
    (fileObj : JObj) : ReadResult :=
  match objGet cache path with
  | some (some v) => ⟨some v, false, cache⟩
  | _ =>
    let v := objGet fileObj "defaultAuthId"
    ⟨v, true, objSet cache path v⟩

/-- The commit path of `handleSelectEnvironment` after a real environment name
is chosen (`multiEnvironment.ts` lines 350-352): the cache entry for the
project file's path is set to the chosen name, then `onProjectJsonFileChanged`
updates `defaultAuthId` and the write marker and writes the file.  Returns
(cache after, file contents after). -/
def commitSelection (cache : List (String × Option JVal)) (path : String)
    (fileContents : JObj) (env : String) (now : Nat) :
    List (String × Option JVal) × JObj :=
  let cache2 := objSet cache path (some (JVal.vstr env))
  let r := onProjectJsonFileChanged fileContents (some env) now
  (cache2, r.written.getD fileContents)

/-- Reading a freshly written key yields the written value. -/
theorem objGet_objSet_self {α : Type} (m : List (String × α)) (k : String) (v : α) :
    objGet (objSet m k v) k = some v := by
  induction m with
  | nil => simp [objGet, objSet]
  | cons p rest ih =>
    by_cases h : p.1 = k
    · simp [objGet, objSet, h]
    · simp [objGet, objSet, h, ih]

/-- Writing one key leaves every other key's value unchanged. -/
theorem objGet_objSet_ne {α : Type} (m : List (String × α)) (k k' : String) (v : α)
    (h : k' ≠ k) : objGet (objSet m k v) k' = objGet m k' := by
  induction m with
  | nil => simp [objGet, objSet, Ne.symm h]
  | cons p rest ih =>
    by_cases hp : p.1 = k
    · simp [objGet, objSet, hp, Ne.symm h]
    · by_cases hp' : p.1 = k'
      · simp [objGet, objSet, hp, hp', h]
      · simp [objGet, objSet, hp, hp', ih]

/-- The serialized engine timestamp is never the empty string. -/
theorem isoDate_ne_empty (t : Nat) : isoDate t ≠ "" := by
  intro h
  have h2 : '2' :: (Nat.repr t).data = ([] : List Char) := congrArg String.data h
  exact List.noConfusion h2

/-- C2: the classification function `isProd` satisfies: for every environment
name whose catalog record (the first record found with that name) has an
`Account ID` starting case-insensitively with "tstdrv", the result is `false`
(non-production) regardless of the record's account type or the name; and for
every name with no catalog record, the result is `true` exactly when the
lowercased name contains "prod". -/
theorem c2_isProd_classification (authId : String) (envs : List EnvRec) :
    (∀ acc, envs.find? (fun env => objGet env "name" == some authId) = some acc →
      strStartsWith (jsToLower ((objGet acc "Account ID").getD "")) "tstdrv" = true →
      isProd authId envs = false) ∧
    (envs.find? (fun env => objGet env "name" == some authId) = none →
      (isProd authId envs = true ↔ strContains (jsToLower authId) "prod" = true)) := by
  constructor
  · intro acc hfind hts
    by_cases h0 : authId = ""
    · simp [isProd, h0]
    · simp [isProd, h0, hfind, hts]
  · intro hfind
    by_cases h0 : authId = ""
    · subst h0
      simp [isProd]
      decide
    · simp [isProd, h0, hfind,
        (by decide : strStartsWith (jsToLower "") "tstdrv" = false)]

/-- C2 witness: a record with a tstdrv account id (reported type "Production",
name containing "prod") classifies as non-production; with no record, the
"prod" heuristic decides. -/
theorem c2_isProd_classification_witness :
    isProd "acme-prod"
        [[("name", "acme-prod"), ("Account ID", "TSTDRV42"), ("type", "Production")]] = false ∧
    (isProd "myPROD" [] = true ↔ strContains (jsToLower "myPROD") "prod" = true) :=
  ⟨(c2_isProd_classification "acme-prod"
        [[("name", "acme-prod"), ("Account ID", "TSTDRV42"), ("type", "Production")]]).1
      [("name", "acme-prod"), ("Account ID", "TSTDRV42"), ("type", "Production")]
      (by decide) (by decide),
   (c2_isProd_classification "myPROD" []).2 (by decide)⟩

/-- C4 (code bug): parsing non-empty collaborator output yields one
environment name per line (the first " | "-delimited field of the cleaned-up
line), but for EMPTY collaborator output the parse yields the single name ""
rather than zero names: `"".trim().split("\n")` is `[""]` in JS, so
`envList.length === 0` (line 130) can never hold, the "No NetSuite
environments found" error is unreachable, and the catalog receives one
empty-named entry instead of being empty. -/
theorem c4_empty_output_eval :
    parseEnvList "envA | u\nenvB | v" = ["envA", "envB"] ∧
    parseEnvList "" = [""] ∧
    (parseEnvList "").length = 1 := by decide

/-- C6: for every compiled filter test and environment list, the filtered
list is exactly the elements whose name passes the test, in their original
relative order (it is a sublist of the input), and whenever the filtered list
is non-empty and strictly smaller than the full list, the presented pick list
is the filtered list with exactly the one synthetic clear-filter entry
appended as its last element. -/
theorem c6_filtering (test : String → Bool) (envs : List EnvRec) :
    (∀ e, e ∈ envs.filter (fun val => test (envName val)) ↔
      (e ∈ envs ∧ test (envName e) = true)) ∧
    (envs.filter (fun val => test (envName val))).Sublist envs ∧
    (envs.filter (fun val => test (envName val)) ≠ [] →
      (envs.filter (fun val => test (envName val))).length < envs.length →
      (buildPickList test envs).1 =
        envs.filter (fun val => test (envName val)) ++ [clearFilterEntry]) := by
  refine ⟨fun e => List.mem_filter, List.filter_sublist _, fun _ h2 => ?_⟩
  simp [buildPickList, if_pos h2]

/-- C6 witness: a pattern matching one of two environments produces that one
match followed by the clear-filter entry. -/
theorem c6_filtering_witness :
    (buildPickList (fun s => s == "alpha") [[("name", "alpha")], [("name", "beta")]]).1 =
      ([[("name", "alpha")], [("name", "beta")]] : List EnvRec).filter
        (fun val => (fun s => s == "alpha") (envName val)) ++ [clearFilterEntry] :=
  (c6_filtering (fun s => s == "alpha") [[("name", "alpha")], [("name", "beta")]]).2.2
    (by decide) (by decide)

/-- C10: choosing an entry whose name is the literal "CLEAR FILTER / SHOW ALL"
string restarts the selection flow with filtering disabled (the remaining
interaction continues on the plain environment list) and commits nothing at
that step; consequently the flow can never commit that name — a real
environment bearing exactly that name can never be set as the active
environment through the picker (only a committed name reaches the cache
update and the state-file write, `multiEnvironment.ts` lines 350-352). -/
theorem c10_clear_filter_selection (envs : List EnvRec) (test : Option (String → Bool))
    (rest choices : List (Option String)) :
    (selectFlow envs test (some MSG_SHOW_ALL_ENVIRONMENTS :: rest) =
      (presentedNames envs test :: (selectFlow envs none rest).1,
       (selectFlow envs none rest).2)) ∧
    (((selectFlow envs test choices).2 == some MSG_SHOW_ALL_ENVIRONMENTS) = false) := by
  constructor
  · simp [selectFlow]
  · induction choices generalizing test with
    | nil => simp [selectFlow]
    | cons c cs ih =>
      cases c with
      | none => simp [selectFlow]
      | some env =>
        by_cases h : env = MSG_SHOW_ALL_ENVIRONMENTS
        · simp [selectFlow, h, ih]
        · simp [selectFlow, h]

/-- C1 counterexample: a state file whose write-marker field is PRESENT but
holds the empty string still triggers a catalog refresh on a change
notification, because the source tests JS truthiness
(`!fileContentsJSON.suiteCloudPlusPlusLastModified`, line 381), not field
absence.  This refutes "a catalog refresh is triggered if and only if the
marker is absent from the file's content" and "repeated notifications for a
file whose marker is present never retrigger a refresh". -/
theorem c1_counterexample :
    (onProjectJsonFileChanged [("suiteCloudPlusPlusLastModified", JVal.vstr "")]
        none 0).refreshTriggered = true ∧
    (objGet ([("suiteCloudPlusPlusLastModified", JVal.vstr "")] : JObj)
        "suiteCloudPlusPlusLastModified").isSome = true := by decide

/-- C1 amended: every engine write (a write committing a user environment
selection) produces file content whose write-marker field is present and
non-empty; on a change notification a catalog refresh is triggered if and
only if the marker field is absent or JS-falsy (e.g. the empty string); and a
notification re-reading content the engine itself wrote never triggers a
refresh, since the engine's marker value is a non-empty string. -/
theorem c1_marker_refresh (fileContents : JObj) (env : String) (now now2 : Nat) :
    (∀ w, (onProjectJsonFileChanged fileContents (some env) now).written = some w →
      objGet w "suiteCloudPlusPlusLastModified" = some (JVal.vstr (isoDate now)) ∧
      isoDate now ≠ "" ∧
      (onProjectJsonFileChanged w none now2).refreshTriggered = false) ∧
    ((onProjectJsonFileChanged fileContents none now).refreshTriggered = true ↔
      jsTruthy (objGet fileContents "suiteCloudPlusPlusLastModified") = false) := by
  constructor
  · intro w hw
    have hw2 : w = objSet (objSet fileContents "defaultAuthId" (JVal.vstr env))
        "suiteCloudPlusPlusLastModified" (JVal.vstr (isoDate now)) := by
      have := hw.symm
      simpa [onProjectJsonFileChanged] using this
    subst hw2
    refine ⟨objGet_objSet_self _ _ _, isoDate_ne_empty now, ?_⟩
    simp [onProjectJsonFileChanged, jsTruthy, objGet_objSet_self, JVal.isTruthy,
      isoDate_ne_empty now]
  · simp [onProjectJsonFileChanged]

/-- C1 witness: committing "sandbox1" into an empty state file at time 5
yields content whose marker is the (non-empty) serialized timestamp, and a
later notification re-reading that content does not trigger a refresh. -/
theorem c1_marker_refresh_witness :
    objGet ([("defaultAuthId", JVal.vstr "sandbox1"),
             ("suiteCloudPlusPlusLastModified", JVal.vstr (isoDate 5))] : JObj)
        "suiteCloudPlusPlusLastModified" = some (JVal.vstr (isoDate 5)) ∧
    isoDate 5 ≠ "" ∧
    (onProjectJsonFileChanged
        [("defaultAuthId", JVal.vstr "sandbox1"),
         ("suiteCloudPlusPlusLastModified", JVal.vstr (isoDate 5))]
        none 7).refreshTriggered = false :=
  (c1_marker_refresh [] "sandbox1" 5 7).1
    [("defaultAuthId", JVal.vstr "sandbox1"),
     ("suiteCloudPlusPlusLastModified", JVal.vstr (isoDate 5))] (by decide)

/-- C3 counterexample: one environment "sandbox1" and a filter matching
nothing: an error is surfaced, but the presented list is NOT the full
unfiltered list — it consists of the synthetic clear-filter entry alone, so
the user IS shown a list with no real environment in it (the unconditional
`filteredEnvironments.length < environments.length` push at line 331 fires on
the empty filtered list, and nothing restores the full list). -/
theorem c3_counterexample :
    buildPickList (fun _ => false) [[("name", "sandbox1")]] =
      ([[("name", MSG_SHOW_ALL_ENVIRONMENTS)]], true) ∧
    (([[("name", MSG_SHOW_ALL_ENVIRONMENTS)]] : List EnvRec) ==
      [[("name", "sandbox1")]]) = false := by decide

/-- C3 amended: whenever applying the filter to a non-empty environment list
produces an empty filtered list, an error is surfaced and the presented list
consists solely of the synthetic clear-filter entry (selecting it restarts
the flow unfiltered); the full unfiltered list is not presented directly. -/
theorem c3_empty_filter (test : String → Bool) (envs : List EnvRec)
    (hne : envs ≠ []) (hemp : envs.filter (fun val => test (envName val)) = []) :
    buildPickList test envs = ([clearFilterEntry], true) := by
  have hlen : 0 < envs.length := List.length_pos.mpr hne
  simp [buildPickList, hemp, hlen]

/-- C3 witness: the amended statement at the counterexample's input. -/
theorem c3_empty_filter_witness :
    buildPickList (fun _ => false) [[("name", "s1")]] = ([clearFilterEntry], true) :=
  c3_empty_filter (fun _ => false) [[("name", "s1")]] (by decide) (by decide)

/-- C5 counterexample: queue ["a", "b"] where the detail collaborator fails
for "a" and would succeed for "b": the backfill rejects before processing
"b", whose catalog entry remains the detail-less placeholder — refuting "a
failure of the detail-collaborator call for one name does not abort the
backfill of the remaining names" (the loop at lines 191-220 has no try/catch,
so the first rejection aborts the whole async function). -/
theorem c5_counterexample :
    loadEnvironmentDetails
        (fun n => if n == "a" then Except.error () else Except.ok "Account Type: Sandbox")
        ["a", "b"] [[("name", "a")], [("name", "b")]]
      = ([[("name", "a")], [("name", "b")]], false) := by decide

/-- C5 amended: detail backfill processes its queued names one at a time
sequentially, and a failure of the detail-collaborator call for a name aborts
the backfill there: the catalog is left as already updated and the remaining
names are not processed (a successful call processes that one name and
continues with the rest). -/
theorem c5_backfill_abort (oracle : String → Except Unit String)
    (envs : List EnvRec) (n : String) (rest : List String) :
    (oracle n = Except.error () →
      loadEnvironmentDetails oracle (n :: rest) envs = (envs, false)) ∧
    (∀ out, oracle n = Except.ok out →
      loadEnvironmentDetails oracle (n :: rest) envs =
        backfillGo oracle (mkEnvIdx (n :: rest) envs) rest
          (applyDetail (mkEnvIdx (n :: rest) envs) envs n out)) := by
  constructor
  · intro h; simp [loadEnvironmentDetails, backfillGo, h]
  · intro out h; simp [loadEnvironmentDetails, backfillGo, h]

/-- C5 witness: a failing head aborts with the catalog untouched; a
succeeding head steps to the rest of the queue. -/
theorem c5_backfill_abort_witness :
    loadEnvironmentDetails (fun _ => Except.error ()) ["x"] [[("name", "x")]] =
      ([[("name", "x")]], false) ∧
    loadEnvironmentDetails (fun _ => Except.ok "A: B") ["y"] [[("name", "y")]] =
      backfillGo (fun _ => Except.ok "A: B") (mkEnvIdx ["y"] [[("name", "y")]]) []
        (applyDetail (mkEnvIdx ["y"] [[("name", "y")]]) [[("name", "y")]] "y" "A: B") :=
  ⟨(c5_backfill_abort (fun _ => Except.error ()) [[("name", "x")]] "x" []).1 rfl,
   (c5_backfill_abort (fun _ => Except.ok "A: B") [[("name", "y")]] "y" []).2 "A: B" rfl⟩

/-- C7 counterexample: a previous catalog [a, b] (both with full detail) and
a new enumeration returning ["b", "a"]: both detailed records are retained
identically, but the merged catalog lists them in the NEW enumeration order
b, a — the relative order the two retained entries had in the previous
catalog (a before b) is not preserved. -/
theorem c7_counterexample :
    (refreshMerge
        [[("name", "a"), ("Account ID", "1"), ("type", "Production")],
         [("name", "b"), ("Account ID", "2"), ("type", "Sandbox")]]
        ["b", "a"]).1
      = [[("name", "b"), ("Account ID", "2"), ("type", "Sandbox")],
         [("name", "a"), ("Account ID", "1"), ("type", "Production")]] ∧
    ([[("name", "a"), ("Account ID", "1"), ("type", "Production")],
      [("name", "b"), ("Account ID", "2"), ("type", "Sandbox")]] : List EnvRec).map envName
      = ["a", "b"] ∧
    ((refreshMerge
        [[("name", "a"), ("Account ID", "1"), ("type", "Production")],
         [("name", "b"), ("Account ID", "2"), ("type", "Sandbox")]]
        ["b", "a"]).1).map envName
      = ["b", "a"] := by decide

/-- C7 amended: the merged catalog is exactly the new enumeration order, with
each re-enumerated name that had a previous record keeping that record
identically (the record under that name in the previous catalog's by-name
map) and each new name getting a fresh placeholder; so re-enumerated detailed
entries are never discarded and keep identical detail content, but their
relative order follows the new enumeration, not the previous catalog. -/
theorem c7_merge_detail_preserving (old : List EnvRec) (envList : List String) :
    (refreshMerge old envList).1 =
      envList.map (fun n => (objGet (mkOldByName old) n).getD [("name", n)]) := by
  unfold refreshMerge
  induction envList with
  | nil => simp [refreshMergeGo]
  | cons n rest ih =>
    simp only [refreshMergeGo, List.map]
    cases h : objGet (mkOldByName old) n <;> simp [h, ih]

/-- C8: committing the selection "sandbox1" on a state file sets the cache
entry so that the next cached read returns "sandbox1" without re-parsing,
writes "sandbox1" into the file's `defaultAuthId`, and leaves every field of
the file other than `defaultAuthId` and the `suiteCloudPlusPlusLastModified`
write marker unchanged. -/
theorem c8_round_trip (cache : List (String × Option JVal)) (path : String)
    (fileContents : JObj) (now : Nat) :
    cacheRead (commitSelection cache path fileContents "sandbox1" now).1 path
        (commitSelection cache path fileContents "sandbox1" now).2 =
      ⟨some (JVal.vstr "sandbox1"), false,
       (commitSelection cache path fileContents "sandbox1" now).1⟩ ∧
    objGet (commitSelection cache path fileContents "sandbox1" now).2 "defaultAuthId" =
      some (JVal.vstr "sandbox1") ∧
    (∀ k, k ≠ "defaultAuthId" → k ≠ "suiteCloudPlusPlusLastModified" →
      objGet (commitSelection cache path fileContents "sandbox1" now).2 k =
        objGet fileContents k) := by
  have hfile : (commitSelection cache path fileContents "sandbox1" now).2 =
      objSet (objSet fileContents "defaultAuthId" (JVal.vstr "sandbox1"))
        "suiteCloudPlusPlusLastModified" (JVal.vstr (isoDate now)) := by
    simp [commitSelection, onProjectJsonFileChanged]
  have hcache : (commitSelection cache path fileContents "sandbox1" now).1 =
      objSet cache path (some (JVal.vstr "sandbox1")) := by
    simp [commitSelection]
  refine ⟨?_, ?_, ?_⟩
  · rw [hcache]
    simp [cacheRead, objGet_objSet_self]
  · rw [hfile, objGet_objSet_ne _ _ _ _ (by decide), objGet_objSet_self]
  · intro k h1 h2
    rw [hfile, objGet_objSet_ne _ _ _ _ h2, objGet_objSet_ne _ _ _ _ h1]

/-- C8 witness: the round trip on a one-field file, with the unrelated field
"projectid" preserved. -/
theorem c8_round_trip_witness :
    cacheRead (commitSelection [] "p" [("projectid", JVal.vstr "X")] "sandbox1" 3).1 "p"
        (commitSelection [] "p" [("projectid", JVal.vstr "X")] "sandbox1" 3).2 =
      ⟨some (JVal.vstr "sandbox1"), false,
       (commitSelection [] "p" [("projectid", JVal.vstr "X")] "sandbox1" 3).1⟩ ∧
    objGet (commitSelection [] "p" [("projectid", JVal.vstr "X")] "sandbox1" 3).2
        "projectid" = objGet [("projectid", JVal.vstr "X")] "projectid" :=
  ⟨(c8_round_trip [] "p" [("projectid", JVal.vstr "X")] 3).1,
   (c8_round_trip [] "p" [("projectid", JVal.vstr "X")] 3).2.2 "projectid"
     (by decide) (by decide)⟩

/-- C9 counterexample: a file with no `defaultAuthId` field (a genuine
absence): the first read parses and stores JS `undefined` into the cache, but
a stored `undefined` is indistinguishable from a missing entry under the
`=== undefined` check (line 248), so the second read of the same unchanged
file parses it again — refuting "a second read of the same unchanged file
after a genuine absence does not re-parse the file". -/
theorem c9_counterexample :
    (cacheRead [] "p" []).didParse = true ∧
    (cacheRead (cacheRead [] "p" []).cacheAfter "p" []).didParse = true := by decide

/-- C9 amended: the cached read returns the cached value without touching
disk whenever a cached (defined) value exists; on a cache miss it parses the
file and stores the extracted `defaultAuthId`; when the extracted value is
present (even the empty string) the next read is served from the cache
without re-parsing, but when the field is absent the stored `undefined` does
not count as a cached value and the next read re-parses the file. -/
theorem c9_cache_read (cache : List (String × Option JVal)) (path : String)
    (obj : JObj) :
    (∀ v, objGet cache path = some (some v) →
      cacheRead cache path obj = ⟨some v, false, cache⟩) ∧
    (objGet cache path = none ∨ objGet cache path = some none →
      cacheRead cache path obj =
        ⟨objGet obj "defaultAuthId", true,
         objSet cache path (objGet obj "defaultAuthId")⟩) ∧
    (∀ w, objGet obj "defaultAuthId" = some w →
      (cacheRead (cacheRead cache path obj).cacheAfter path obj).didParse = false) ∧
    (objGet obj "defaultAuthId" = none →
      objGet cache path = none ∨ objGet cache path = some none →
      (cacheRead (cacheRead cache path obj).cacheAfter path obj).didParse = true) := by
  refine ⟨?_, ?_, ?_, ?_⟩
  · intro v h; simp [cacheRead, h]
  · intro h
    rcases h with h | h <;> simp [cacheRead, h]
  · intro w h
    rcases hj : objGet cache path with _ | o
    · simp [cacheRead, hj, h, objGet_objSet_self]
    · rcases o with _ | v
      · simp [cacheRead, hj, h, objGet_objSet_self]
      · simp [cacheRead, hj]
  · intro h hj
    rcases hj with hj | hj <;> simp [cacheRead, hj, h, objGet_objSet_self]

/-- C9 witness: a cached value is returned without parsing; a present-but-
empty `defaultAuthId` is effectively cached (no re-parse), while an absent
field forces a re-parse on the second read. -/
theorem c9_cache_read_witness :
    cacheRead [("p", some (JVal.vstr "sandbox1"))] "p" [] =
      ⟨some (JVal.vstr "sandbox1"), false, [("p", some (JVal.vstr "sandbox1"))]⟩ ∧
    (cacheRead (cacheRead [] "q" [("defaultAuthId", JVal.vstr "")]).cacheAfter "q"
        [("defaultAuthId", JVal.vstr "")]).didParse = false ∧
    (cacheRead (cacheRead [] "r" []).cacheAfter "r" []).didParse = true :=
  ⟨(c9_cache_read [("p", some (JVal.vstr "sandbox1"))] "p" []).1
      (JVal.vstr "sandbox1") (by decide),
   (c9_cache_read [] "q" [("defaultAuthId", JVal.vstr "")]).2.2.1
      (JVal.vstr "") (by decide),
   (c9_cache_read [] "r" []).2.2.2 (by decide) (by decide)⟩
